import Mathlib

/-!
Shallow embedding of the order fulfillment and ledger engine of the db3cerp
repository (Django app `business` plus the pricing helpers in
`products/utils.py`), together with proofs settling the frozen claims.

Modelling conventions:
* All monetary fields are `DecimalField(decimal_places=0)` in the source, so
  they are embedded as `Int`; stock quantities are `IntegerField`, also `Int`.
* A Django row set is a Lean `List`; creation prepends (Django's default
  `ordering = ['-created_at']` on `OrderProduct` and `AccountTopUPLog` shows
  rows newest-first, which is how the views iterate them).  The stock-lot list
  is kept in ascending `created_at` order, because both deduction loops query
  `.order_by('created_at')`.
* `transaction.atomic()` together with `raise` is embedded by returning the
  unchanged store paired with `false` (the rollback makes the failed
  operation observationally a no-op).
* Timestamp-valued columns (`created_at`, `exchange_time`) and text remarks
  carry no program logic relevant to the claims and are omitted from the row
  structures; list position plays the role of `created_at`.
-/

/-- Account roles, from `accounts/constant.py` (`AccountRole`). -/
inductive AccountRole
  | HEADQUARTER
  | AGENT
  | DISTRIBUTOR
  | PEER
  | USER
deriving Repr, DecidableEq

/-- Order states, from `business/constant.py` (`OrderStatus`). -/
inductive OrderStatus
  | HOLDING
  | PENDING
  | WAIT
  | PAID
  | WAIT_SHIP
  | SHIPPING
  | WAIT_PICKUP
  | DONE
  | CANCELLED
deriving Repr, DecidableEq

/-- Payment types, from `business/constant.py` (`PaymentType`).
`TOPUP` is the prepaid-wallet payment the spec calls WALLET. -/
inductive PaymentType
  | TOPUP
  | CASH
  | DIRECT_BANK_TRANSFER
deriving Repr, DecidableEq

/-- Ledger entry types, from `business/constant.py` (`TopupType`). -/
inductive TopupType
  | DEPOSIT
  | CONSUMPTION
  | REFUND
deriving Repr, DecidableEq

/-! ## Pricing resolver (`products/utils.py`)

Price columns are nullable decimals; Python truthiness on them is
"non-`None` and non-zero", which the helpers below reproduce. -/

/-- Price fields of `products.models.Variant` used by the pricing helpers.
All of them are nullable decimal columns. -/
structure Variant where
  price : Option Int
  price_sales : Option Int
  price_agent : Option Int
  price_sales_agent : Option Int
  price_peer : Option Int
  price_sales_peer : Option Int
deriving Repr, DecidableEq

/-- An `AgentDistributorPricing` row (`products/models.py`): `price_distr`
is a non-nullable column, `price_sales_distr` is nullable. -/
structure AgentDistributorPricing where
  price_distr : Int
  price_sales_distr : Option Int
deriving Repr, DecidableEq

/-- Python truthiness of a nullable decimal: `None` and `0` are falsy. -/
def truthy (x : Option Int) : Bool :=
  match x with
  | none => false
  | some v => v != 0

/-- `sale or base or 0`: the first truthy value of the chain, else `0`. -/
def firstTruthy (sale base : Option Int) : Int :=
  if truthy sale then sale.getD 0
  else if truthy base then base.getD 0
  else 0

/-- `base if sale else None`: the original price shown only when a sale
price is set (truthy). -/
def originalPrice (sale base : Option Int) : Option Int :=
  if truthy sale then base else none

/-- `bool(sale and base and sale < base)`. -/
def hasSale (sale base : Option Int) : Bool :=
  truthy sale && truthy base && decide (sale.getD 0 < base.getD 0)

/-- `get_user_price` (`products/utils.py`): general-tier pricing. -/
def get_user_price (v : Variant) : Int × Option Int × Bool :=
  (firstTruthy v.price_sales v.price,
   originalPrice v.price_sales v.price,
   hasSale v.price_sales v.price)

/-- `get_headquarter_price`: identical fields to the general tier. -/
def get_headquarter_price (v : Variant) : Int × Option Int × Bool :=
  (firstTruthy v.price_sales v.price,
   originalPrice v.price_sales v.price,
   hasSale v.price_sales v.price)

/-- `get_agent_price`: agent-tier columns. -/
def get_agent_price (v : Variant) : Int × Option Int × Bool :=
  (firstTruthy v.price_sales_agent v.price_agent,
   originalPrice v.price_sales_agent v.price_agent,
   hasSale v.price_sales_agent v.price_agent)

/-- `get_peer_price`: peer-tier columns. -/
def get_peer_price (v : Variant) : Int × Option Int × Bool :=
  (firstTruthy v.price_sales_peer v.price_peer,
   originalPrice v.price_sales_peer v.price_peer,
   hasSale v.price_sales_peer v.price_peer)

/-- The requesting account as the pricing helpers see it: its role, whether
it is authenticated, and (for distributors) the id and role of its parent. -/
structure ParentRef where
  id : Nat
  role : AccountRole
deriving Repr, DecidableEq

structure Account where
  is_authenticated : Bool
  role : AccountRole
  parent : Option ParentRef
deriving Repr, DecidableEq

/-- `get_distributor_price` (`products/utils.py`).  `lookup` embeds
`AgentDistributorPricing.objects.get(variant=variant, agent=agent)` for the
fixed variant of the call: it maps an agent id to the pricing row, `none`
when the row does not exist. -/
def get_distributor_price (lookup : Nat → Option AgentDistributorPricing)
    (user : Account) : Int × Option Int × Bool :=
  if user.role != AccountRole.DISTRIBUTOR then (0, none, false)
  else
    match user.parent with
    | none => (0, none, false)
    | some agent =>
      if agent.role != AccountRole.AGENT then (0, none, false)
      else
        match lookup agent.id with
        | none => (0, none, false)
        | some pricing =>
          (if truthy pricing.price_sales_distr then pricing.price_sales_distr.getD 0
           else pricing.price_distr,
           if truthy pricing.price_sales_distr then some pricing.price_distr else none,
           truthy pricing.price_sales_distr && pricing.price_distr != 0 &&
             decide (pricing.price_sales_distr.getD 0 < pricing.price_distr))

/-- `get_variant_price_for_user` (`products/utils.py`): role dispatch. -/
def get_variant_price_for_user (v : Variant)
    (lookup : Nat → Option AgentDistributorPricing) (user : Account) :
    Int × Option Int × Bool :=
  if !user.is_authenticated then get_user_price v
  else
    match user.role with
    | AccountRole.HEADQUARTER => get_headquarter_price v
    | AccountRole.AGENT => get_agent_price v
    | AccountRole.DISTRIBUTOR => get_distributor_price lookup user
    | AccountRole.PEER => get_peer_price v
    | AccountRole.USER => get_user_price v

/-! ## Inventory ledger (`business/views.py`)

A `Stock` row (`products/models.py`): `product` is the variant id the lot
belongs to.  The lot list of a store is kept in ascending `created_at`
order, matching the `.order_by('created_at')` of both deduction loops. -/

structure Stock where
  id : Nat
  product : Nat
  quantity : Int
  is_used : Bool
deriving Repr, DecidableEq

/-- One element of an `OrderProduct.used_stocks` JSON list, exactly the
keys written by `submit_order` and `confirm_reservation`. -/
structure UsedStock where
  stock_id : Nat
  deducted_quantity : Int
  stock_quantity_before : Int
deriving Repr, DecidableEq

/-- The aggregate availability pre-check of `submit_order` and
`confirm_reservation`:
`Stock.objects.filter(product=variant, is_used=False).aggregate(Sum('quantity'))`. -/
def available_stock (lots : List Stock) (v : Nat) : Int :=
  ((lots.filter (fun l => l.product == v && !l.is_used)).map (fun l => l.quantity)).sum

/-- The FIFO deduction loop shared verbatim by `submit_order` (step 7) and
`confirm_reservation` (step 5): iterate the lots with
`product = v`, `is_used = False`, `quantity > 0` in `created_at` order,
take `min(lot.quantity, remaining)` from each, record the trace entry with
the pre-deduction quantity, mark a lot used when it reaches `0`, and stop
once nothing remains.  Returns (updated lots, trace, remaining). -/
def deduct_loop (v : Nat) (q : Int) : List Stock → List Stock × List UsedStock × Int
  | [] => ([], [], q)
  | l :: ls =>
    if q ≤ 0 then (l :: ls, [], q)
    else if l.product == v && !l.is_used && decide (0 < l.quantity) then
      let d := min l.quantity q
      let l' : Stock := { l with
        quantity := l.quantity - d,
        is_used := if l.quantity - d ≤ 0 then true else l.is_used }
      let r := deduct_loop v (q - d) ls
      (l' :: r.1, ⟨l.id, d, l.quantity⟩ :: r.2.1, r.2.2)
    else
      let r := deduct_loop v q ls
      (l :: r.1, r.2.1, r.2.2)

/-- Restoration of a single trace entry, from `DeleteOrderView.post`
(step 4) and `delete_order_product` (step 6):
`Stock.objects.select_for_update().get(id=stock_id)` — the first (unique)
lot with that id — gets `deducted_quantity` added back and its used flag
cleared when the result is positive; a missing lot is skipped. -/
def restore_entry (e : UsedStock) : List Stock → List Stock
  | [] => []
  | l :: ls =>
    if l.id == e.stock_id then
      { l with
        quantity := l.quantity + e.deducted_quantity,
        is_used := if 0 < l.quantity + e.deducted_quantity then false else l.is_used } :: ls
    else l :: restore_entry e ls

/-- Restoration of a whole `used_stocks` trace, entry by entry in recorded
order. -/
def restore_trace (tr : List UsedStock) (lots : List Stock) : List Stock :=
  tr.foldl (fun acc e => restore_entry e acc) lots

/-! ## Data model of the order engine (`business/models.py`) -/

/-- An `Order` row; `shipping_fee` defaults to `0` and neither creation
path sets it. -/
structure OrderRec where
  id : Nat
  payment_type : PaymentType
  status : OrderStatus
  shipping_fee : Int
deriving Repr, DecidableEq

/-- An `OrderProduct` row.  `variant` is nullable (`on_delete=SET_NULL`). -/
structure OrderProduct where
  id : Nat
  order : Nat
  variant : Option Nat
  quantity : Int
  unit_price : Int
  used_stocks : List UsedStock
deriving Repr, DecidableEq

/-- An `AccountTopUPLog` row; `order` is nullable (deposits have none). -/
structure AccountTopUPLog where
  amount : Int
  balance_before : Int
  balance_after : Int
  order : Option Nat
  log_type : TopupType
  is_confirmed : Bool
deriving Repr, DecidableEq

/-- The persistent state the claims range over, for one ordering account:
its stock lots (ascending `created_at`), its `AccountTopUP` row
(`none` = row not yet created), the topup log (newest first, matching
`ordering = ['-created_at']`), and the orders with their line items
(products also newest first). -/
structure Store where
  lots : List Stock
  balance : Option Int
  logs : List AccountTopUPLog
  orders : List OrderRec
  products : List OrderProduct
deriving Repr, DecidableEq

/-- One requested line handed to the engine by the cart:
`{variant_id, quantity, unit_price}`. -/
structure LineReq where
  variant : Nat
  quantity : Int
  unit_price : Int
deriving Repr, DecidableEq

/-- `Σ unit_price × quantity` over the cart, the running `total_amount` of
`submit_order`. -/
def lines_total (lines : List LineReq) : Int :=
  (lines.map (fun li => li.unit_price * li.quantity)).sum

/-- `Order.amount`: `Σ unit_price × quantity` over the order's stored
line items. -/
def order_amount (s : Store) (oid : Nat) : Int :=
  ((s.products.filter (fun p => p.order == oid)).map
    (fun p => p.unit_price * p.quantity)).sum

/-! ## Balance ledger pieces (`business/views.py`)

`submit_order` step 5+8 and `confirm_reservation` step 4+6 contain the same
inlined wallet debit (lock the `AccountTopUP` row, compare, subtract, log a
confirmed CONSUMPTION entry); the refunds of `DeleteOrderView.post` and
both branches of `delete_order_product` contain the same inlined credit.
They are factored here so the ledger invariants can be stated once. -/

/-- The wallet debit: fails (whole transaction aborts) when
`topup.balance < total_amount`, otherwise returns the new balance and the
CONSUMPTION entry written alongside it. -/
def debit_topup (b : Int) (total : Int) (oid : Nat) : Option (Int × AccountTopUPLog) :=
  if b < total then none
  else some (b - total, ⟨-total, b, b - total, some oid, TopupType.CONSUMPTION, true⟩)

/-- The wallet refund credit: returns the new balance and the REFUND entry
written alongside it. -/
def credit_refund (b : Int) (amount : Int) (oid : Nat) : Int × AccountTopUPLog :=
  (b + amount, ⟨amount, b, b + amount, some oid, TopupType.REFUND, true⟩)

/-- `TopupCreateView.form_valid`: `get_or_create` materialises a missing
`AccountTopUP` row with balance `0`, then adds the amount and writes a
confirmed DEPOSIT entry (no linked order). -/
def topup_create (s : Store) (amount : Int) : Store :=
  let b0 := s.balance.getD 0
  { s with
    balance := some (b0 + amount),
    logs := (⟨amount, b0, b0 + amount, none, TopupType.DEPOSIT, true⟩ : AccountTopUPLog) :: s.logs }

/-! ## Order creation (`submit_order`, `business/views.py`) -/

/-- Sequential FIFO deduction for each cart line (step 7 of
`submit_order`): any line left with a positive remainder raises, which
rolls the transaction back — embedded as `none`. -/
def deduct_lines : List Stock → List LineReq →
    Option (List Stock × List (LineReq × List UsedStock))
  | lots, [] => some (lots, [])
  | lots, li :: rest =>
    let r := deduct_loop li.variant li.quantity lots
    if 0 < r.2.2 then none
    else
      match deduct_lines r.1 rest with
      | none => none
      | some (lots', acc) => some (lots', (li, r.2.1) :: acc)

/-- `OrderProduct.objects.create` for each line in cart order; each new row
is prepended (rows read back newest-first).  Row ids are `pid0 + k`. -/
def create_products (oid pid0 : Nat) :
    List (LineReq × List UsedStock) → List OrderProduct → Nat → List OrderProduct
  | [], ps, _ => ps
  | (li, tr) :: rest, ps, k =>
    create_products oid pid0 rest
      (⟨pid0 + k, oid, some li.variant, li.quantity, li.unit_price, tr⟩ :: ps) (k + 1)

/-- `submit_order`: validate the cart (non-empty, prices non-negative),
pre-check aggregate availability per line, check the wallet balance for
TOPUP payment (a missing `AccountTopUP` row aborts), create the order and
its line items while deducting stock FIFO, then debit the wallet and set
the order PAID (TOPUP) or leave it PENDING (CASH / bank transfer).
Every failure returns the untouched store (transaction rollback). -/
def submit_order (s : Store) (oid pid0 : Nat) (pt : PaymentType)
    (lines : List LineReq) : Store × Bool :=
  if lines.isEmpty then (s, false)
  else if lines.any (fun li => li.unit_price < 0) then (s, false)
  else if lines.any (fun li => available_stock s.lots li.variant < li.quantity) then (s, false)
  else if pt == PaymentType.TOPUP && s.balance.isNone then (s, false)
  else if pt == PaymentType.TOPUP && s.balance.getD 0 < lines_total lines then (s, false)
  else
    match deduct_lines s.lots lines with
    | none => (s, false)
    | some (lots', tls) =>
      let products' := create_products oid pid0 tls s.products 0
      match pt, s.balance with
      | PaymentType.TOPUP, some b =>
        match debit_topup b (lines_total lines) oid with
        | none => (s, false)
        | some (b', lg) =>
          ({ lots := lots', balance := some b', logs := lg :: s.logs,
             orders := ⟨oid, pt, OrderStatus.PAID, 0⟩ :: s.orders,
             products := products' }, true)
      | PaymentType.TOPUP, none => (s, false)
      | _, _ =>
        ({ lots := lots', balance := s.balance, logs := s.logs,
           orders := ⟨oid, pt, OrderStatus.PENDING, 0⟩ :: s.orders,
           products := products' }, true)

/-- `submit_reservation`: validates the cart exactly like `submit_order`
(active variant, non-negative price) but performs **no** stock check and no
balance interaction; creates the order HOLDING with empty `used_stocks`. -/
def submit_reservation (s : Store) (oid pid0 : Nat) (pt : PaymentType)
    (lines : List LineReq) : Store × Bool :=
  if lines.isEmpty then (s, false)
  else if lines.any (fun li => li.unit_price < 0) then (s, false)
  else
    ({ s with
       orders := ⟨oid, pt, OrderStatus.HOLDING, 0⟩ :: s.orders,
       products := create_products oid pid0 (lines.map (fun li => (li, []))) s.products 0 },
     true)

/-! ## Reservation confirmation (`confirm_reservation`, `business/views.py`) -/

/-- Step 5 of `confirm_reservation`: FIFO-deduct every line of the order
(in the newest-first iteration order of `order.order_products.all()`),
skipping lines whose variant was deleted, and collect the new
`used_stocks` per line id.  The loop has no remaining-quantity failure
check; whatever trace results is stored. -/
def confirm_deduct : List Stock → List OrderProduct →
    List Stock × List (Nat × List UsedStock)
  | lots, [] => (lots, [])
  | lots, p :: rest =>
    match p.variant with
    | none => confirm_deduct lots rest
    | some v =>
      let d := deduct_loop v p.quantity lots
      let r := confirm_deduct d.1 rest
      (r.1, (p.id, d.2.1) :: r.2)

/-- `order.status = st; order.save()` for a single order id. -/
def set_status (orders : List OrderRec) (oid : Nat) (st : OrderStatus) :
    List OrderRec :=
  orders.map (fun o => if o.id == oid then { o with status := st } else o)

/-- `confirm_reservation`: requires status HOLDING, re-checks aggregate
availability for every line against the current lots (listing all
shortfalls before aborting), re-checks the wallet balance for TOPUP (a
missing `AccountTopUP` row aborts), then deducts stock FIFO storing the
traces, debits the wallet, and sets the order PAID. -/
def confirm_reservation (s : Store) (oid : Nat) : Store × Bool :=
  match s.orders.find? (fun o => o.id == oid) with
  | none => (s, false)
  | some o =>
    if o.status != OrderStatus.HOLDING then (s, false)
    else
      let prods := s.products.filter (fun p => p.order == oid)
      if prods.any (fun p =>
          match p.variant with
          | some v => available_stock s.lots v < p.quantity
          | none => false) then (s, false)
      else
        let total := order_amount s oid + o.shipping_fee
        if o.payment_type == PaymentType.TOPUP && s.balance.isNone then (s, false)
        else if o.payment_type == PaymentType.TOPUP && s.balance.getD 0 < total then (s, false)
        else
          let dres := confirm_deduct s.lots prods
          let products' := s.products.map (fun p =>
            match dres.2.find? (fun pr => pr.1 == p.id) with
            | some pr => { p with used_stocks := pr.2 }
            | none => p)
          match o.payment_type, s.balance with
          | PaymentType.TOPUP, some b =>
            match debit_topup b total oid with
            | none => (s, false)
            | some (b', lg) =>
              ({ lots := dres.1, balance := some b', logs := lg :: s.logs,
                 orders := set_status s.orders oid OrderStatus.PAID,
                 products := products' }, true)
          | PaymentType.TOPUP, none => (s, false)
          | _, _ =>
            ({ lots := dres.1, balance := s.balance, logs := s.logs,
               orders := set_status s.orders oid OrderStatus.PAID,
               products := products' }, true)

/-! ## Compensating deletes (`business/views.py`) -/

/-- `DeleteOrderView.post`: only PENDING / CANCELLED / PAID orders are
deletable.  For every line whose variant still exists and whose
`used_stocks` is non-empty, restore the recorded trace.  For TOPUP
payment, credit the order's `total_amount` back as a REFUND entry (skipped
if the `AccountTopUP` row is missing).  Finally delete every
`AccountTopUPLog` linked to the order (including the refund entry just
written), the line items, and the order row itself. -/
def delete_order (s : Store) (oid : Nat) : Store × Bool :=
  match s.orders.find? (fun o => o.id == oid) with
  | none => (s, false)
  | some o =>
    if !(o.status == OrderStatus.PENDING || o.status == OrderStatus.CANCELLED ||
         o.status == OrderStatus.PAID) then (s, false)
    else
      let prods := s.products.filter (fun p => p.order == oid)
      let order_total := order_amount s oid + o.shipping_fee
      let lots' := prods.foldl (fun acc p =>
        match p.variant with
        | none => acc
        | some _ => if p.used_stocks.isEmpty then acc else restore_trace p.used_stocks acc)
        s.lots
      let refunded :=
        if o.payment_type == PaymentType.TOPUP then
          match s.balance with
          | some b =>
            let r := credit_refund b order_total oid
            (some r.1, r.2 :: s.logs)
          | none => (s.balance, s.logs)
        else (s.balance, s.logs)
      ({ lots := lots',
         balance := refunded.1,
         logs := refunded.2.filter (fun lg => lg.order != some oid),
         orders := s.orders.filter (fun o2 => o2.id != oid),
         products := s.products.filter (fun p => p.order != oid) }, true)

/-- `delete_order_product`: only PENDING / PAID / WAIT / HOLDING orders are
editable.  Restore the line's trace (when the variant exists and the trace
is non-empty), delete the line, then: if the order has no remaining line,
refund the absolute value of the order's original CONSUMPTION entry (when
one exists) and cascade-delete the order together with its ledger entries;
otherwise refund `unit_price × quantity` of the deleted line (again only
when a CONSUMPTION entry exists).  A missing `AccountTopUP` row skips the
refund in both branches. -/
def delete_order_product (s : Store) (oid pid : Nat) : Store × Bool :=
  match s.orders.find? (fun o => o.id == oid) with
  | none => (s, false)
  | some o =>
    if !(o.status == OrderStatus.PENDING || o.status == OrderStatus.PAID ||
         o.status == OrderStatus.WAIT || o.status == OrderStatus.HOLDING) then (s, false)
    else
      match s.products.find? (fun p => p.id == pid && p.order == oid) with
      | none => (s, false)
      | some p =>
        let product_amount := p.unit_price * p.quantity
        let lots' :=
          match p.variant with
          | none => s.lots
          | some _ => if p.used_stocks.isEmpty then s.lots else restore_trace p.used_stocks s.lots
        let products' := s.products.filter (fun q => q.id != pid)
        let remaining := products'.filter (fun q => q.order == oid)
        let consumption_log :=
          (s.logs.filter (fun lg =>
            lg.order == some oid && lg.log_type == TopupType.CONSUMPTION)).head?
        if remaining.isEmpty then
          let refunded :=
            if o.payment_type == PaymentType.TOPUP then
              match s.balance, consumption_log with
              | some b, some clog =>
                let r := credit_refund b |clog.amount| oid
                (some r.1, r.2 :: s.logs)
              | _, _ => (s.balance, s.logs)
            else (s.balance, s.logs)
          ({ lots := lots',
             balance := refunded.1,
             logs := refunded.2.filter (fun lg => lg.order != some oid),
             orders := s.orders.filter (fun o2 => o2.id != oid),
             products := products' }, true)
        else
          let refunded :=
            if o.payment_type == PaymentType.TOPUP then
              match s.balance, consumption_log with
              | some b, some _ =>
                let r := credit_refund b product_amount oid
                (some r.1, r.2 :: s.logs)
              | _, _ => (s.balance, s.logs)
            else (s.balance, s.logs)
          ({ lots := lots',
             balance := refunded.1,
             logs := refunded.2,
             orders := s.orders,
             products := products' }, true)

/-! ## Lemmas about the FIFO deduction loop -/

theorem deduct_loop_cons (v : Nat) (q : Int) (l : Stock) (ls : List Stock) :
    deduct_loop v q (l :: ls) =
      if q ≤ 0 then (l :: ls, [], q)
      else if l.product == v && !l.is_used && decide (0 < l.quantity) then
        (({ l with
            quantity := l.quantity - min l.quantity q,
            is_used := if l.quantity - min l.quantity q ≤ 0 then true else l.is_used } : Stock)
          :: (deduct_loop v (q - min l.quantity q) ls).1,
         (⟨l.id, min l.quantity q, l.quantity⟩ : UsedStock)
          :: (deduct_loop v (q - min l.quantity q) ls).2.1,
         (deduct_loop v (q - min l.quantity q) ls).2.2)
      else
        (l :: (deduct_loop v q ls).1,
         (deduct_loop v q ls).2.1,
         (deduct_loop v q ls).2.2) := rfl

theorem deduct_loop_ids (v : Nat) (q : Int) (lots : List Stock) :
    ((deduct_loop v q lots).1).map (fun l => l.id) = lots.map (fun l => l.id) := by
  induction lots generalizing q with
  | nil => simp [deduct_loop]
  | cons l ls ih =>
    by_cases hq : q ≤ 0
    · simp [deduct_loop, hq]
    · by_cases hf : (l.product == v && !l.is_used && decide (0 < l.quantity)) = true
      · simp [deduct_loop, hq, hf, ih]
      · simp [deduct_loop, hq, hf, ih]

theorem deduct_loop_trace_mem (v : Nat) (q : Int) (lots : List Stock) :
    ∀ e ∈ (deduct_loop v q lots).2.1, e.stock_id ∈ lots.map (fun l => l.id) := by
  induction lots generalizing q with
  | nil => simp [deduct_loop]
  | cons l ls ih =>
    intro e he
    by_cases hq : q ≤ 0
    · simp [deduct_loop, hq] at he
    · by_cases hf : (l.product == v && !l.is_used && decide (0 < l.quantity)) = true
      · simp only [deduct_loop, hq, if_false, hf, if_true] at he
        simp only [List.mem_cons] at he
        rcases he with he | he
        · subst he; simp
        · simp only [List.map_cons, List.mem_cons]
          exact Or.inr (ih _ _ he)
      · simp only [deduct_loop, hq, if_false, hf, if_true] at he
        simp only [List.map_cons, List.mem_cons]
        exact Or.inr (ih _ _ he)

theorem restore_entry_skip (e : UsedStock) (l : Stock) (ls : List Stock)
    (h : e.stock_id ≠ l.id) :
    restore_entry e (l :: ls) = l :: restore_entry e ls := by
  have : (l.id == e.stock_id) = false := by
    simp only [beq_eq_false_iff_ne, ne_eq]
    exact fun hc => h hc.symm
  simp [restore_entry, this]

theorem restore_trace_nil_trace (lots : List Stock) :
    restore_trace [] lots = lots := rfl

theorem restore_trace_cons_trace (e : UsedStock) (tr : List UsedStock)
    (lots : List Stock) :
    restore_trace (e :: tr) lots = restore_trace tr (restore_entry e lots) := rfl

theorem restore_trace_skip (tr : List UsedStock) (l : Stock) (ls : List Stock)
    (h : ∀ e ∈ tr, e.stock_id ≠ l.id) :
    restore_trace tr (l :: ls) = l :: restore_trace tr ls := by
  induction tr generalizing ls with
  | nil => rfl
  | cons e tr ih =>
    rw [restore_trace_cons_trace, restore_entry_skip e l ls (h e (by simp)),
      restore_trace_cons_trace]
    exact ih _ (fun e' he' => h e' (by simp [he']))

/-- Exact reversal: restoring the trace recorded by a FIFO deduction over
lots with distinct ids gives back the pre-deduction lots, field for field. -/
theorem deduct_restore (v : Nat) (q : Int) (lots : List Stock)
    (hnd : (lots.map (fun l => l.id)).Nodup) :
    restore_trace (deduct_loop v q lots).2.1 (deduct_loop v q lots).1 = lots := by
  induction lots generalizing q with
  | nil => simp [deduct_loop, restore_trace]
  | cons l ls ih =>
    simp only [List.map_cons, List.nodup_cons] at hnd
    obtain ⟨hl, hnd'⟩ := hnd
    by_cases hq : q ≤ 0
    · rw [deduct_loop_cons, if_pos hq]; rfl
    · by_cases hf : (l.product == v && !l.is_used && decide (0 < l.quantity)) = true
      · have hf0 := hf
        simp only [Bool.and_eq_true, beq_iff_eq, Bool.not_eq_true', decide_eq_true_eq] at hf0
        obtain ⟨⟨hp, hu⟩, hpos⟩ := hf0
        rw [deduct_loop_cons, if_neg hq, if_pos hf]
        rw [restore_trace_cons_trace]
        have hhead : restore_entry ⟨l.id, min l.quantity q, l.quantity⟩
            (({ l with
                quantity := l.quantity - min l.quantity q,
                is_used := if l.quantity - min l.quantity q ≤ 0 then true else l.is_used } : Stock)
              :: (deduct_loop v (q - min l.quantity q) ls).1) =
            l :: (deduct_loop v (q - min l.quantity q) ls).1 := by
          simp only [restore_entry, beq_self_eq_true, if_true]
          congr 1
          have hqty : l.quantity - min l.quantity q + min l.quantity q = l.quantity := by ring
          cases l with
          | mk id product quantity is_used =>
            simp only at hqty hpos hu ⊢
            simp [hqty, hpos, hu]
        rw [hhead]
        rw [restore_trace_skip _ _ _ (fun e he => by
          have := deduct_loop_trace_mem v (q - min l.quantity q) ls e he
          intro hc
          exact hl (hc ▸ this))]
        rw [ih _ hnd']
      · rw [deduct_loop_cons, if_neg hq, if_neg hf]
        rw [restore_trace_skip _ _ _ (fun e he => by
          have := deduct_loop_trace_mem v q ls e he
          intro hc
          exact hl (hc ▸ this))]
        rw [ih _ hnd']

theorem available_stock_nil (v : Nat) : available_stock [] v = 0 := rfl

theorem available_stock_cons (v : Nat) (l : Stock) (ls : List Stock) :
    available_stock (l :: ls) v =
      if l.product == v && !l.is_used then l.quantity + available_stock ls v
      else available_stock ls v := by
  by_cases h : (l.product == v && !l.is_used) = true
  · simp [available_stock, h]
  · simp [available_stock, h]

theorem available_stock_nonneg (v : Nat) (lots : List Stock)
    (hn : ∀ l ∈ lots, 0 ≤ l.quantity) : 0 ≤ available_stock lots v := by
  induction lots with
  | nil => simp [available_stock_nil]
  | cons l ls ih =>
    rw [available_stock_cons]
    have hls : ∀ l' ∈ ls, 0 ≤ l'.quantity := fun l' hl' => hn l' (by simp [hl'])
    by_cases h : (l.product == v && !l.is_used) = true
    · rw [if_pos h]
      have := hn l (by simp)
      have := ih hls
      omega
    · rw [if_neg h]
      exact ih hls

/-- Completeness bound: the remainder left by the FIFO loop is at least the
shortfall against the aggregate availability pre-check. -/
theorem deduct_loop_rem_lower (v : Nat) (q : Int) (lots : List Stock)
    (hn : ∀ l ∈ lots, 0 ≤ l.quantity) :
    q - available_stock lots v ≤ (deduct_loop v q lots).2.2 := by
  induction lots generalizing q with
  | nil => simp [deduct_loop, available_stock_nil]
  | cons l ls ih =>
    have hlq := hn l (by simp)
    have hls : ∀ l' ∈ ls, 0 ≤ l'.quantity := fun l' hl' => hn l' (by simp [hl'])
    by_cases hq : q ≤ 0
    · rw [deduct_loop_cons, if_pos hq]
      have := available_stock_nonneg v (l :: ls) hn
      simpa using by omega
    · by_cases hf : (l.product == v && !l.is_used && decide (0 < l.quantity)) = true
      · have hf0 := hf
        simp only [Bool.and_eq_true, beq_iff_eq, Bool.not_eq_true', decide_eq_true_eq] at hf0
        obtain ⟨⟨hp, hu⟩, hpos⟩ := hf0
        rw [deduct_loop_cons, if_neg hq, if_pos hf]
        rw [available_stock_cons, if_pos (by simp [hp, hu])]
        have hrec := ih (q - min l.quantity q) hls
        have hmin : min l.quantity q ≤ l.quantity := min_le_left _ _
        simp only at hrec ⊢
        omega
      · rw [deduct_loop_cons, if_neg hq, if_neg hf]
        rw [available_stock_cons]
        have hrec := ih q hls
        by_cases ha : (l.product == v && !l.is_used) = true
        · rw [if_pos ha]
          -- the lot is counted by the pre-check but skipped by the loop,
          -- so its quantity must be zero here
          have hz : ¬(0 < l.quantity) := by
            intro hc
            exact hf (by simp only [Bool.and_eq_true] at ha ⊢; simp [ha.1, ha.2, hc])
          simp only at hrec ⊢
          omega
        · rw [if_neg ha]
          exact hrec

/-- No lot ever goes negative: the loop takes `min(lot.quantity, remaining)`
from each lot it touches. -/
theorem deduct_loop_nonneg (v : Nat) (q : Int) (lots : List Stock)
    (hn : ∀ l ∈ lots, 0 ≤ l.quantity) :
    ∀ l' ∈ (deduct_loop v q lots).1, 0 ≤ l'.quantity := by
  induction lots generalizing q with
  | nil => simp [deduct_loop]
  | cons l ls ih =>
    have hlq := hn l (by simp)
    have hls : ∀ l' ∈ ls, 0 ≤ l'.quantity := fun l' hl' => hn l' (by simp [hl'])
    intro l' hl'
    by_cases hq : q ≤ 0
    · rw [deduct_loop_cons, if_pos hq] at hl'
      exact hn l' hl'
    · by_cases hf : (l.product == v && !l.is_used && decide (0 < l.quantity)) = true
      · rw [deduct_loop_cons, if_neg hq, if_pos hf] at hl'
        simp only [List.mem_cons] at hl'
        rcases hl' with hl' | hl'
        · subst hl'
          simp only
          have : min l.quantity q ≤ l.quantity := min_le_left _ _
          omega
        · exact ih _ hls l' hl'
      · rw [deduct_loop_cons, if_neg hq, if_neg hf] at hl'
        simp only [List.mem_cons] at hl'
        rcases hl' with hl' | hl'
        · subst hl'; exact hlq
        · exact ih _ hls l' hl'

/-- FIFO order: the trace consumes lots in list (i.e. `created_at`) order —
its stock ids form an ordered sublist of the lot ids. -/
theorem deduct_loop_trace_sublist (v : Nat) (q : Int) (lots : List Stock) :
    ((deduct_loop v q lots).2.1.map (fun e => e.stock_id)).Sublist
      (lots.map (fun l => l.id)) := by
  induction lots generalizing q with
  | nil => simp [deduct_loop]
  | cons l ls ih =>
    by_cases hq : q ≤ 0
    · rw [deduct_loop_cons, if_pos hq]
      simp
    · by_cases hf : (l.product == v && !l.is_used && decide (0 < l.quantity)) = true
      · rw [deduct_loop_cons, if_neg hq, if_pos hf]
        simpa using List.Sublist.cons₂ l.id (ih (q - min l.quantity q))
      · rw [deduct_loop_cons, if_neg hq, if_neg hf]
        simpa using List.Sublist.cons l.id (ih q)

/-- Every trace entry names a source lot, snapshots that lot's exact
pre-deduction quantity, and deducts a positive amount bounded by it. -/
theorem deduct_loop_trace_sound (v : Nat) (q : Int) (lots : List Stock) :
    ∀ e ∈ (deduct_loop v q lots).2.1, ∃ l ∈ lots,
      l.id = e.stock_id ∧ l.quantity = e.stock_quantity_before ∧
      0 < e.deducted_quantity ∧ e.deducted_quantity ≤ e.stock_quantity_before := by
  induction lots generalizing q with
  | nil => simp [deduct_loop]
  | cons l ls ih =>
    intro e he
    by_cases hq : q ≤ 0
    · rw [deduct_loop_cons, if_pos hq] at he
      simp at he
    · by_cases hf : (l.product == v && !l.is_used && decide (0 < l.quantity)) = true
      · have hf0 := hf
        simp only [Bool.and_eq_true, beq_iff_eq, Bool.not_eq_true', decide_eq_true_eq] at hf0
        obtain ⟨⟨hp, hu⟩, hpos⟩ := hf0
        rw [deduct_loop_cons, if_neg hq, if_pos hf] at he
        simp only [List.mem_cons] at he
        rcases he with he | he
        · refine ⟨l, by simp, ?_⟩
          subst he
          refine ⟨rfl, rfl, ?_, min_le_left _ _⟩
          have : 0 < q := by omega
          exact lt_min hpos this
        · obtain ⟨l', hl', hrest⟩ := ih _ e he
          exact ⟨l', by simp [hl'], hrest⟩
      · rw [deduct_loop_cons, if_neg hq, if_neg hf] at he
        obtain ⟨l', hl', hrest⟩ := ih _ e he
        exact ⟨l', by simp [hl'], hrest⟩

/-- The trace accounts exactly for what was taken:
`Σ deducted_quantity = q - remaining`. -/
theorem deduct_loop_trace_sum (v : Nat) (q : Int) (lots : List Stock) :
    ((deduct_loop v q lots).2.1.map (fun e => e.deducted_quantity)).sum =
      q - (deduct_loop v q lots).2.2 := by
  induction lots generalizing q with
  | nil => simp [deduct_loop]
  | cons l ls ih =>
    by_cases hq : q ≤ 0
    · rw [deduct_loop_cons, if_pos hq]; simp
    · by_cases hf : (l.product == v && !l.is_used && decide (0 < l.quantity)) = true
      · rw [deduct_loop_cons, if_neg hq, if_pos hf]
        have := ih (q - min l.quantity q)
        simp only [List.map_cons, List.sum_cons] at this ⊢
        omega
      · rw [deduct_loop_cons, if_neg hq, if_neg hf]
        exact ih q

/-! ## Lemmas about whole-order deduction and line-item creation -/

theorem deduct_lines_ids (lots : List Stock) (lines : List LineReq)
    (lots' : List Stock) (tls : List (LineReq × List UsedStock))
    (h : deduct_lines lots lines = some (lots', tls)) :
    lots'.map (fun l => l.id) = lots.map (fun l => l.id) := by
  induction lines generalizing lots lots' tls with
  | nil =>
    simp only [deduct_lines, Option.some.injEq, Prod.mk.injEq] at h
    rw [h.1]
  | cons li rest ih =>
    simp only [deduct_lines] at h
    by_cases hr : 0 < (deduct_loop li.variant li.quantity lots).2.2
    · rw [if_pos hr] at h; exact absurd h (by simp)
    · rw [if_neg hr] at h
      cases hrec : deduct_lines (deduct_loop li.variant li.quantity lots).1 rest with
      | none => rw [hrec] at h; exact absurd h (by simp)
      | some p =>
        rw [hrec] at h
        cases p with
        | mk a b =>
          simp only [Option.some.injEq, Prod.mk.injEq] at h
          rw [← h.1]
          rw [ih _ _ _ hrec, deduct_loop_ids]

theorem deduct_lines_fst (lots : List Stock) (lines : List LineReq)
    (lots' : List Stock) (tls : List (LineReq × List UsedStock))
    (h : deduct_lines lots lines = some (lots', tls)) :
    tls.map (fun t => t.1) = lines := by
  induction lines generalizing lots lots' tls with
  | nil =>
    simp only [deduct_lines, Option.some.injEq, Prod.mk.injEq] at h
    rw [← h.2]; rfl
  | cons li rest ih =>
    simp only [deduct_lines] at h
    by_cases hr : 0 < (deduct_loop li.variant li.quantity lots).2.2
    · rw [if_pos hr] at h; exact absurd h (by simp)
    · rw [if_neg hr] at h
      cases hrec : deduct_lines (deduct_loop li.variant li.quantity lots).1 rest with
      | none => rw [hrec] at h; exact absurd h (by simp)
      | some p =>
        rw [hrec] at h
        cases p with
        | mk a b =>
          simp only [Option.some.injEq, Prod.mk.injEq] at h
          rw [← h.2]
          simp [ih _ _ _ hrec]

theorem deduct_lines_nonneg (lots : List Stock) (lines : List LineReq)
    (lots' : List Stock) (tls : List (LineReq × List UsedStock))
    (h : deduct_lines lots lines = some (lots', tls))
    (hn : ∀ l ∈ lots, 0 ≤ l.quantity) :
    ∀ l' ∈ lots', 0 ≤ l'.quantity := by
  induction lines generalizing lots lots' tls with
  | nil =>
    simp only [deduct_lines, Option.some.injEq, Prod.mk.injEq] at h
    rw [← h.1]; exact hn
  | cons li rest ih =>
    simp only [deduct_lines] at h
    by_cases hr : 0 < (deduct_loop li.variant li.quantity lots).2.2
    · rw [if_pos hr] at h; exact absurd h (by simp)
    · rw [if_neg hr] at h
      cases hrec : deduct_lines (deduct_loop li.variant li.quantity lots).1 rest with
      | none => rw [hrec] at h; exact absurd h (by simp)
      | some p =>
        rw [hrec] at h
        cases p with
        | mk a b =>
          simp only [Option.some.injEq, Prod.mk.injEq] at h
          rw [← h.1]
          exact ih _ _ _ hrec (deduct_loop_nonneg _ _ _ hn)

/-- The stack discipline of the compensating delete: restoring the
per-line traces in reverse creation order (which is how
`order.order_products.all()` iterates them) undoes the whole multi-line
deduction exactly. -/
theorem deduct_lines_restore (lots : List Stock) (lines : List LineReq)
    (lots' : List Stock) (tls : List (LineReq × List UsedStock))
    (h : deduct_lines lots lines = some (lots', tls))
    (hnd : (lots.map (fun l => l.id)).Nodup) :
    ((tls.map (fun t => t.2)).reverse).foldl
      (fun acc tr => restore_trace tr acc) lots' = lots := by
  induction lines generalizing lots lots' tls with
  | nil =>
    simp only [deduct_lines, Option.some.injEq, Prod.mk.injEq] at h
    rw [← h.1, ← h.2]
    rfl
  | cons li rest ih =>
    simp only [deduct_lines] at h
    by_cases hr : 0 < (deduct_loop li.variant li.quantity lots).2.2
    · rw [if_pos hr] at h; exact absurd h (by simp)
    · rw [if_neg hr] at h
      cases hrec : deduct_lines (deduct_loop li.variant li.quantity lots).1 rest with
      | none => rw [hrec] at h; exact absurd h (by simp)
      | some p =>
        rw [hrec] at h
        cases p with
        | mk a b =>
          simp only [Option.some.injEq, Prod.mk.injEq] at h
          obtain ⟨h1, h2⟩ := h
          subst h1; subst h2
          have hnd1 : ((deduct_loop li.variant li.quantity lots).1.map
              (fun l => l.id)).Nodup := by
            rw [deduct_loop_ids]; exact hnd
          have hih := ih _ _ _ hrec hnd1
          simp only [List.map_cons, List.reverse_cons, List.foldl_append,
            List.foldl_cons, List.foldl_nil]
          rw [hih]
          exact deduct_restore li.variant li.quantity lots hnd

theorem create_products_append (oid pid0 : Nat)
    (tls : List (LineReq × List UsedStock)) (ps : List OrderProduct) (k : Nat) :
    create_products oid pid0 tls ps k = create_products oid pid0 tls [] k ++ ps := by
  induction tls generalizing ps k with
  | nil => simp [create_products]
  | cons t rest ih =>
    cases t with
    | mk li tr =>
      simp only [create_products]
      rw [ih, ih (_ :: _)]
      simp

theorem create_products_mem (oid pid0 : Nat)
    (tls : List (LineReq × List UsedStock)) (k : Nat) :
    ∀ p ∈ create_products oid pid0 tls [] k, ∃ li tr ix,
      (li, tr) ∈ tls ∧
      p = ⟨pid0 + ix, oid, some li.variant, li.quantity, li.unit_price, tr⟩ := by
  induction tls generalizing k with
  | nil => simp [create_products]
  | cons t rest ih =>
    cases t with
    | mk li tr =>
      intro p hp
      simp only [create_products] at hp
      rw [create_products_append] at hp
      simp only [List.mem_append, List.mem_singleton] at hp
      rcases hp with hp | hp
      · obtain ⟨li', tr', ix, hmem, hform⟩ := ih (k + 1) p hp
        exact ⟨li', tr', ix, by simp [hmem], hform⟩
      · exact ⟨li, tr, k, by simp, hp⟩

theorem create_products_order_eq (oid pid0 : Nat)
    (tls : List (LineReq × List UsedStock)) (k : Nat) :
    ∀ p ∈ create_products oid pid0 tls [] k, p.order = oid := by
  intro p hp
  obtain ⟨li, tr, ix, _, hform⟩ := create_products_mem oid pid0 tls k p hp
  rw [hform]

theorem create_products_variant_some (oid pid0 : Nat)
    (tls : List (LineReq × List UsedStock)) (k : Nat) :
    ∀ p ∈ create_products oid pid0 tls [] k, p.variant ≠ none := by
  intro p hp
  obtain ⟨li, tr, ix, _, hform⟩ := create_products_mem oid pid0 tls k p hp
  rw [hform]
  simp

theorem create_products_us (oid pid0 : Nat)
    (tls : List (LineReq × List UsedStock)) (k : Nat) :
    (create_products oid pid0 tls [] k).map (fun p => p.used_stocks) =
      (tls.map (fun t => t.2)).reverse := by
  induction tls generalizing k with
  | nil => simp [create_products]
  | cons t rest ih =>
    cases t with
    | mk li tr =>
      simp only [create_products]
      rw [create_products_append]
      simp [ih]

theorem create_products_amount (oid pid0 : Nat)
    (tls : List (LineReq × List UsedStock)) (k : Nat) :
    ((create_products oid pid0 tls [] k).map
      (fun p => p.unit_price * p.quantity)).sum =
      ((tls.map (fun t => t.1.unit_price * t.1.quantity)).sum) := by
  induction tls generalizing k with
  | nil => simp [create_products]
  | cons t rest ih =>
    cases t with
    | mk li tr =>
      simp only [create_products]
      rw [create_products_append]
      simp only [List.map_append, List.sum_append, List.map_cons, List.sum_cons,
        List.map_nil, List.sum_nil]
      rw [ih]
      ring

/-- The restore fold of `DeleteOrderView.post` over lines that all still
reference a variant is the plain trace-restore fold. -/
theorem delete_fold_eq (prods : List OrderProduct) (lots : List Stock)
    (h : ∀ p ∈ prods, p.variant ≠ none) :
    prods.foldl (fun acc p =>
      match p.variant with
      | none => acc
      | some _ => if p.used_stocks.isEmpty then acc else restore_trace p.used_stocks acc) lots
    = (prods.map (fun p => p.used_stocks)).foldl
        (fun acc tr => restore_trace tr acc) lots := by
  induction prods generalizing lots with
  | nil => rfl
  | cons p rest ih =>
    have hp := h p (by simp)
    have hrest : ∀ q ∈ rest, q.variant ≠ none := fun q hq => h q (by simp [hq])
    cases hv : p.variant with
    | none => exact absurd hv hp
    | some v =>
      simp only [List.foldl_cons, List.map_cons, hv]
      cases hus : p.used_stocks with
      | nil =>
        simp only [List.isEmpty_nil, if_true]
        rw [ih _ hrest]
        rfl
      | cons e tr =>
        simp only [List.isEmpty_cons, Bool.false_eq_true, if_false]
        rw [ih _ hrest]

/-- Successful TOPUP checkout, characterised: the balance row exists and
suffices, every line deducts fully, and the resulting store is exactly the
deducted lots, the debited balance, the CONSUMPTION entry, the PAID order
and the created line items. -/
theorem submit_order_topup_spec (s : Store) (oid pid0 : Nat) (lines : List LineReq)
    (hok : (submit_order s oid pid0 PaymentType.TOPUP lines).2 = true) :
    ∃ b lots' tls,
      s.balance = some b ∧
      lines_total lines ≤ b ∧
      deduct_lines s.lots lines = some (lots', tls) ∧
      (submit_order s oid pid0 PaymentType.TOPUP lines).1 =
        { lots := lots',
          balance := some (b - lines_total lines),
          logs := ⟨-(lines_total lines), b, b - lines_total lines, some oid,
                   TopupType.CONSUMPTION, true⟩ :: s.logs,
          orders := ⟨oid, PaymentType.TOPUP, OrderStatus.PAID, 0⟩ :: s.orders,
          products := create_products oid pid0 tls s.products 0 } := by
  simp only [submit_order] at hok ⊢
  split at hok
  · exact absurd hok (by simp)
  next h1 =>
  rw [if_neg h1]
  split at hok
  · exact absurd hok (by simp)
  next h2 =>
  rw [if_neg h2]
  split at hok
  · exact absurd hok (by simp)
  next h3 =>
  rw [if_neg h3]
  split at hok
  · exact absurd hok (by simp)
  next h4 =>
  rw [if_neg h4]
  split at hok
  · exact absurd hok (by simp)
  next h5 =>
  rw [if_neg h5]
  split at hok
  · exact absurd hok (by simp)
  next lots' tls heq =>
  rw [heq]
  cases hbal : s.balance with
  | none =>
    rw [hbal] at h4
    exact absurd h4 (by simp)
  | some b =>
    rw [hbal] at h5
    have hle : lines_total lines ≤ b := by
      simp only [beq_self_eq_true, Bool.true_and, Option.getD_some,
        decide_eq_true_eq] at h5
      omega
    have hdeb : debit_topup b (lines_total lines) oid =
        some (b - lines_total lines,
          ⟨-(lines_total lines), b, b - lines_total lines, some oid,
           TopupType.CONSUMPTION, true⟩) := by
      rw [debit_topup, if_neg (by omega)]
    refine ⟨b, lots', tls, rfl, hle, rfl, ?_⟩
    simp only [hdeb]

theorem filter_all_ne (logs : List AccountTopUPLog) (oid : Nat) :
    ((logs.filter (fun lg => lg.order != some oid)).all
      (fun lg => lg.order != some oid)) = true := by
  rw [List.all_eq_true]
  intro lg hlg
  exact (List.mem_filter.mp hlg).2

theorem create_products_filter_fresh (s : Store) (oid pid0 : Nat)
    (tls : List (LineReq × List UsedStock))
    (hfresh : s.products.filter (fun p => p.order == oid) = []) :
    (create_products oid pid0 tls s.products 0).filter (fun p => p.order == oid) =
      create_products oid pid0 tls [] 0 := by
  rw [create_products_append, List.filter_append, hfresh, List.append_nil]
  exact List.filter_eq_self.mpr (fun p hp => by
    simpa using create_products_order_eq oid pid0 tls 0 p hp)

/-- C1: a WALLET (TOPUP) order created by `submit_order` and then deleted
by `DeleteOrderView.post` leaves every stock lot and the account balance
exactly as they were before the order was created, and no ledger entry
linked to the order remains. -/
theorem C1_wallet_order_delete_reversal (s : Store) (oid pid0 : Nat)
    (lines : List LineReq)
    (hnd : (s.lots.map (fun l => l.id)).Nodup)
    (hfresh : s.products.filter (fun p => p.order == oid) = [])
    (hok : (submit_order s oid pid0 PaymentType.TOPUP lines).2 = true) :
    (delete_order (submit_order s oid pid0 PaymentType.TOPUP lines).1 oid).2 = true ∧
    (delete_order (submit_order s oid pid0 PaymentType.TOPUP lines).1 oid).1.lots = s.lots ∧
    (delete_order (submit_order s oid pid0 PaymentType.TOPUP lines).1 oid).1.balance = s.balance ∧
    ((delete_order (submit_order s oid pid0 PaymentType.TOPUP lines).1 oid).1.logs.all
      (fun lg => lg.order != some oid)) = true := by
  obtain ⟨b, lots', tls, hbal, hle, hded, hres⟩ :=
    submit_order_topup_spec s oid pid0 lines hok
  rw [hres]
  have hfind : ((⟨oid, PaymentType.TOPUP, OrderStatus.PAID, 0⟩ : OrderRec) :: s.orders).find?
      (fun o => o.id == oid) = some ⟨oid, PaymentType.TOPUP, OrderStatus.PAID, 0⟩ :=
    List.find?_cons_of_pos _ (by simp)
  have hprods := create_products_filter_fresh s oid pid0 tls hfresh
  have hfst := deduct_lines_fst s.lots lines lots' tls hded
  have hamount :
      ((create_products oid pid0 tls [] 0).map (fun p => p.unit_price * p.quantity)).sum =
        lines_total lines := by
    rw [create_products_amount]
    unfold lines_total
    rw [← hfst, List.map_map]
    rfl
  have hfold : (create_products oid pid0 tls [] 0).foldl
      (fun acc p =>
        match p.variant with
        | none => acc
        | some _ => if p.used_stocks.isEmpty then acc
                    else restore_trace p.used_stocks acc) lots' = s.lots := by
    rw [delete_fold_eq _ _ (create_products_variant_some oid pid0 tls 0),
      create_products_us]
    exact deduct_lines_restore s.lots lines lots' tls hded hnd
  simp only [delete_order, hfind]
  rw [if_neg (by decide)]
  simp only [order_amount, hprods, hamount, hfold, credit_refund,
    beq_self_eq_true, if_true]
  refine ⟨trivial, trivial, ?_, filter_all_ne _ _⟩
  rw [hbal]
  simp only [Option.some.injEq]
  ring

/-- Case analysis on the lots of a `submit_order` result: either the
operation failed (store untouched) or the lots are a full multi-line
deduction of the original lots. -/
theorem submit_order_lots_cases (s : Store) (oid pid0 : Nat) (pt : PaymentType)
    (lines : List LineReq) :
    (submit_order s oid pid0 pt lines).1.lots = s.lots ∨
    ∃ lots' tls, deduct_lines s.lots lines = some (lots', tls) ∧
      (submit_order s oid pid0 pt lines).1.lots = lots' := by
  simp only [submit_order]
  split
  · exact Or.inl rfl
  split
  · exact Or.inl rfl
  split
  · exact Or.inl rfl
  split
  · exact Or.inl rfl
  split
  · exact Or.inl rfl
  split
  · exact Or.inl rfl
  next lots' tls heq =>
    split
    · split
      · exact Or.inl rfl
      · exact Or.inr ⟨lots', tls, heq, rfl⟩
    · exact Or.inl rfl
    · exact Or.inr ⟨lots', tls, heq, rfl⟩

theorem confirm_deduct_nonneg (lots : List Stock) (prods : List OrderProduct)
    (hn : ∀ l ∈ lots, 0 ≤ l.quantity) :
    ∀ l' ∈ (confirm_deduct lots prods).1, 0 ≤ l'.quantity := by
  induction prods generalizing lots with
  | nil => exact fun l' hl' => hn l' hl'
  | cons p rest ih =>
    cases hv : p.variant with
    | none =>
      simp only [confirm_deduct, hv]
      exact ih lots hn
    | some v =>
      simp only [confirm_deduct, hv]
      exact ih _ (deduct_loop_nonneg v p.quantity lots hn)

/-- Case analysis on the lots of a `confirm_reservation` result. -/
theorem confirm_reservation_lots_cases (s : Store) (oid : Nat) :
    (confirm_reservation s oid).1.lots = s.lots ∨
    (confirm_reservation s oid).1.lots =
      (confirm_deduct s.lots (s.products.filter (fun p => p.order == oid))).1 := by
  simp only [confirm_reservation]
  split
  · exact Or.inl rfl
  split
  · exact Or.inl rfl
  split
  · exact Or.inl rfl
  split
  · exact Or.inl rfl
  split
  · exact Or.inl rfl
  split
  · split
    · exact Or.inl rfl
    · exact Or.inr rfl
  · exact Or.inl rfl
  · exact Or.inr rfl

/-- Any line short on the aggregate pre-check makes `submit_order` abort
with the store untouched. -/
theorem submit_order_stock_abort (s : Store) (oid pid0 : Nat) (pt : PaymentType)
    (lines : List LineReq)
    (h : ∃ li ∈ lines, available_stock s.lots li.variant < li.quantity) :
    submit_order s oid pid0 pt lines = (s, false) := by
  simp only [submit_order]
  by_cases h1 : lines.isEmpty = true
  · rw [if_pos h1]
  · rw [if_neg h1]
    by_cases h2 : (lines.any fun li => decide (li.unit_price < 0)) = true
    · rw [if_pos h2]
    · rw [if_neg h2]
      obtain ⟨li, hmem, hlt⟩ := h
      rw [if_pos (List.any_eq_true.mpr ⟨li, hmem, by simpa using hlt⟩)]

/-- Any line of the order short on the re-check makes `confirm_reservation`
abort with the store untouched. -/
theorem confirm_reservation_stock_abort (s : Store) (oid : Nat)
    (h : ∃ p ∈ s.products.filter (fun p => p.order == oid), ∃ w,
      p.variant = some w ∧ available_stock s.lots w < p.quantity) :
    confirm_reservation s oid = (s, false) := by
  simp only [confirm_reservation]
  split
  · rfl
  · split
    · rfl
    · obtain ⟨p, hmem, w, hw, hlt⟩ := h
      rw [if_pos (List.any_eq_true.mpr ⟨p, hmem, by rw [hw]; simpa using hlt⟩)]

/-- Insufficient wallet balance makes a TOPUP `submit_order` abort with the
store untouched. -/
theorem submit_order_balance_abort (s : Store) (oid pid0 : Nat)
    (lines : List LineReq) (b : Int)
    (hbal : s.balance = some b) (hlt : b < lines_total lines) :
    submit_order s oid pid0 PaymentType.TOPUP lines = (s, false) := by
  simp only [submit_order]
  by_cases h1 : lines.isEmpty = true
  · rw [if_pos h1]
  · rw [if_neg h1]
    by_cases h2 : (lines.any fun li => decide (li.unit_price < 0)) = true
    · rw [if_pos h2]
    · rw [if_neg h2]
      by_cases h3 : (lines.any fun li =>
          decide (available_stock s.lots li.variant < li.quantity)) = true
      · rw [if_pos h3]
      · rw [if_neg h3]
        rw [if_neg (by simp [hbal])]
        rw [if_pos (by simp [hbal]; exact hlt)]

/-- Insufficient wallet balance makes a TOPUP `confirm_reservation` abort
with the store untouched. -/
theorem confirm_reservation_balance_abort (s : Store) (oid : Nat)
    (o : OrderRec) (b : Int)
    (horder : s.orders.find? (fun o2 => o2.id == oid) = some o)
    (hst : o.status = OrderStatus.HOLDING)
    (hpt : o.payment_type = PaymentType.TOPUP)
    (hbal : s.balance = some b)
    (hlt : b < order_amount s oid + o.shipping_fee) :
    confirm_reservation s oid = (s, false) := by
  simp only [confirm_reservation, horder]
  rw [if_neg (by simp [hst])]
  by_cases h1 : ((s.products.filter (fun p => p.order == oid)).any fun p =>
      match p.variant with
      | some v => decide (available_stock s.lots v < p.quantity)
      | none => false) = true
  · rw [if_pos h1]
  · rw [if_neg h1]
    rw [if_neg (by simp [hpt, hbal])]
    rw [if_pos (by simp [hpt, hbal]; exact hlt)]

/-- Successful non-TOPUP checkout, characterised: stock is deducted, the
wallet and the ledger are untouched, and the order is created PENDING. -/
theorem submit_order_non_topup_spec (s : Store) (oid pid0 : Nat)
    (pt : PaymentType) (lines : List LineReq)
    (hpt : pt ≠ PaymentType.TOPUP)
    (hok : (submit_order s oid pid0 pt lines).2 = true) :
    ∃ lots' tls, deduct_lines s.lots lines = some (lots', tls) ∧
      (submit_order s oid pid0 pt lines).1 =
        { lots := lots', balance := s.balance, logs := s.logs,
          orders := ⟨oid, pt, OrderStatus.PENDING, 0⟩ :: s.orders,
          products := create_products oid pid0 tls s.products 0 } := by
  simp only [submit_order] at hok ⊢
  split at hok
  · exact absurd hok (by simp)
  next h1 =>
  rw [if_neg h1]
  split at hok
  · exact absurd hok (by simp)
  next h2 =>
  rw [if_neg h2]
  split at hok
  · exact absurd hok (by simp)
  next h3 =>
  rw [if_neg h3]
  split at hok
  · exact absurd hok (by simp)
  next h4 =>
  rw [if_neg h4]
  split at hok
  · exact absurd hok (by simp)
  next h5 =>
  rw [if_neg h5]
  split at hok
  · exact absurd hok (by simp)
  next lots' tls heq =>
  rw [heq]
  cases pt with
  | TOPUP => exact absurd rfl hpt
  | CASH => exact ⟨lots', tls, rfl, rfl⟩
  | DIRECT_BANK_TRANSFER => exact ⟨lots', tls, rfl, rfl⟩

theorem filter_all_ne_order (orders : List OrderRec) (oid : Nat) :
    ((orders.filter (fun o => o.id != oid)).all (fun o => o.id != oid)) = true := by
  rw [List.all_eq_true]
  intro o ho
  exact (List.mem_filter.mp ho).2

/-- C2 (amended): deleting a line of a TOPUP order whose wallet row and
original CONSUMPTION entry exist refunds `unit_price × quantity` of the
deleted line when other lines remain, but refunds `|CONSUMPTION.amount|`
(the full originally debited order total, regardless of earlier per-line
refunds) when the deleted line was the last one, in which case the order
and all its ledger entries are cascade-deleted as well. -/
theorem C2_line_delete_refund (s : Store) (oid pid : Nat)
    (o : OrderRec) (p : OrderProduct) (b : Int) (clog : AccountTopUPLog)
    (horder : s.orders.find? (fun o2 => o2.id == oid) = some o)
    (hstatus : (o.status == OrderStatus.PENDING || o.status == OrderStatus.PAID ||
      o.status == OrderStatus.WAIT || o.status == OrderStatus.HOLDING) = true)
    (hpt : o.payment_type = PaymentType.TOPUP)
    (hprod : s.products.find? (fun q => q.id == pid && q.order == oid) = some p)
    (hbal : s.balance = some b)
    (hclog : (s.logs.filter (fun lg =>
      lg.order == some oid && lg.log_type == TopupType.CONSUMPTION)).head? = some clog) :
    (delete_order_product s oid pid).2 = true ∧
    (delete_order_product s oid pid).1.balance =
      some (b + (if ((s.products.filter (fun q => q.id != pid)).filter
            (fun q => q.order == oid)).isEmpty
          then |clog.amount| else p.unit_price * p.quantity)) ∧
    (((s.products.filter (fun q => q.id != pid)).filter
        (fun q => q.order == oid)).isEmpty = true →
      (delete_order_product s oid pid).1.orders.all (fun o2 => o2.id != oid) = true ∧
      (delete_order_product s oid pid).1.logs.all (fun lg => lg.order != some oid) = true) := by
  simp only [delete_order_product, horder, hprod]
  rw [if_neg (by simp only [hstatus, Bool.not_true]; exact fun hc => nomatch hc)]
  by_cases hrem : (((s.products.filter (fun q => q.id != pid)).filter
      (fun q => q.order == oid)).isEmpty) = true
  · rw [if_pos hrem, if_pos hrem]
    simp only [hpt, hbal, hclog, beq_self_eq_true, if_true, credit_refund]
    exact ⟨trivial, trivial, fun _ => ⟨filter_all_ne_order _ _, filter_all_ne _ _⟩⟩
  · rw [if_neg hrem, if_neg hrem]
    simp only [hpt, hbal, hclog, beq_self_eq_true, if_true, credit_refund]
    exact ⟨trivial, trivial, fun hc => absurd hc hrem⟩

/-- The store of the C2 scenario: two variants with one lot each, wallet
balance 1300. -/
def c2_store : Store :=
  { lots := [⟨1, 7, 10, false⟩, ⟨2, 8, 10, false⟩],
    balance := some 1300, logs := [], orders := [], products := [] }

/-- C2 scenario after `submit_order` of two lines (100×1 and 200×1, TOPUP):
order 9 is PAID and 300 was debited. -/
def c2_after_create : Store :=
  (submit_order c2_store 9 1 PaymentType.TOPUP [⟨7, 1, 100⟩, ⟨8, 1, 200⟩]).1

/-- C2 scenario after deleting the first line (refunded 100). -/
def c2_after_first_delete : Store := (delete_order_product c2_after_create 9 1).1

/-- C2 counterexample: deleting the last remaining line (unit_price 200,
quantity 1) of the PAID TOPUP order credits 300 — the absolute value of the
original CONSUMPTION entry — not the claimed `unit_price × quantity = 200`:
the balance goes from 1100 to 1400, not to 1300. -/
theorem C2_counterexample :
    c2_after_first_delete.products.filter (fun p => p.order == 9) =
      [⟨2, 9, some 8, 1, 200, [⟨2, 1, 10⟩]⟩] ∧
    c2_after_first_delete.balance = some 1100 ∧
    (delete_order_product c2_after_first_delete 9 2).2 = true ∧
    (delete_order_product c2_after_first_delete 9 2).1.balance = some 1400 ∧
    (1400 : Int) ≠ 1100 + 200 * 1 := by decide

/-- Witness for C2 (amended) at the concrete last-line deletion of the C2
scenario: the refund equals `|−300| = 300`. -/
theorem C2_line_delete_refund_witness :
    (c2_after_first_delete.orders.find? (fun o2 => o2.id == 9) =
      some ⟨9, PaymentType.TOPUP, OrderStatus.PAID, 0⟩) ∧
    ((delete_order_product c2_after_first_delete 9 2).2 = true ∧
     (delete_order_product c2_after_first_delete 9 2).1.balance =
       some (1100 + (if ((c2_after_first_delete.products.filter (fun q => q.id != 2)).filter
            (fun q => q.order == 9)).isEmpty
          then |(-300 : Int)|
          else (200 : Int) * 1)) ∧
     (((c2_after_first_delete.products.filter (fun q => q.id != 2)).filter
        (fun q => q.order == 9)).isEmpty = true →
      (delete_order_product c2_after_first_delete 9 2).1.orders.all
        (fun o2 => o2.id != 9) = true ∧
      (delete_order_product c2_after_first_delete 9 2).1.logs.all
        (fun lg => lg.order != some 9) = true)) :=
  ⟨by decide,
   C2_line_delete_refund c2_after_first_delete 9 2
     ⟨9, PaymentType.TOPUP, OrderStatus.PAID, 0⟩
     ⟨2, 9, some 8, 1, 200, [⟨2, 1, 10⟩]⟩ 1100
     ⟨-300, 1300, 1000, some 9, TopupType.CONSUMPTION, true⟩
     (by decide) (by decide) (by decide) (by decide) (by decide) (by decide)⟩

/-- The store of the C1 witness scenario: one lot of 10, balance 1000. -/
def c1_store : Store :=
  { lots := [⟨1, 7, 10, false⟩], balance := some 1000,
    logs := [], orders := [], products := [] }

/-- Witness for C1 at a concrete order of 3 units at price 100. -/
theorem C1_wallet_order_delete_reversal_witness :
    ((c1_store.lots.map (fun l => l.id)).Nodup ∧
     c1_store.products.filter (fun p => p.order == 5) = [] ∧
     (submit_order c1_store 5 1 PaymentType.TOPUP [⟨7, 3, 100⟩]).2 = true) ∧
    ((delete_order (submit_order c1_store 5 1 PaymentType.TOPUP [⟨7, 3, 100⟩]).1 5).2 = true ∧
     (delete_order (submit_order c1_store 5 1 PaymentType.TOPUP [⟨7, 3, 100⟩]).1 5).1.lots =
       c1_store.lots ∧
     (delete_order (submit_order c1_store 5 1 PaymentType.TOPUP [⟨7, 3, 100⟩]).1 5).1.balance =
       c1_store.balance ∧
     ((delete_order (submit_order c1_store 5 1 PaymentType.TOPUP [⟨7, 3, 100⟩]).1 5).1.logs.all
       (fun lg => lg.order != some 5)) = true) :=
  ⟨⟨by decide, by decide, by decide⟩,
   C1_wallet_order_delete_reversal c1_store 5 1 [⟨7, 3, 100⟩]
     (by decide) (by decide) (by decide)⟩

/-- C3: the FIFO deduction can never complete when the aggregate
availability is short of the request; a short line makes `submit_order`
and `confirm_reservation` abort with the store untouched; and neither
operation ever drives a lot quantity negative. -/
theorem C3_no_oversell (v : Nat) (q : Int) (lots : List Stock) (s : Store)
    (oid pid0 : Nat) (pt : PaymentType) (lines : List LineReq)
    (hn : ∀ l ∈ lots, 0 ≤ l.quantity)
    (hns : ∀ l ∈ s.lots, 0 ≤ l.quantity) :
    (available_stock lots v < q → 0 < (deduct_loop v q lots).2.2) ∧
    ((∃ li ∈ lines, available_stock s.lots li.variant < li.quantity) →
      submit_order s oid pid0 pt lines = (s, false)) ∧
    (∀ l' ∈ (submit_order s oid pid0 pt lines).1.lots, 0 ≤ l'.quantity) ∧
    ((∃ p ∈ s.products.filter (fun p => p.order == oid), ∃ w,
        p.variant = some w ∧ available_stock s.lots w < p.quantity) →
      confirm_reservation s oid = (s, false)) ∧
    (∀ l' ∈ (confirm_reservation s oid).1.lots, 0 ≤ l'.quantity) := by
  refine ⟨?_, submit_order_stock_abort s oid pid0 pt lines, ?_,
    confirm_reservation_stock_abort s oid, ?_⟩
  · intro hlt
    have := deduct_loop_rem_lower v q lots hn
    omega
  · rcases submit_order_lots_cases s oid pid0 pt lines with h | ⟨lots', tls, hded, h⟩
    · rw [h]; exact hns
    · rw [h]; exact deduct_lines_nonneg s.lots lines lots' tls hded hns
  · rcases confirm_reservation_lots_cases s oid with h | h
    · rw [h]; exact hns
    · rw [h]; exact confirm_deduct_nonneg s.lots _ hns

/-- Witness for C3 at a concrete short request: one lot of 2, request 5. -/
theorem C3_no_oversell_witness :
    ((∀ l ∈ ([⟨1, 7, 2, false⟩] : List Stock), 0 ≤ l.quantity) ∧
     (∀ l ∈ (Store.mk [⟨1, 7, 2, false⟩] (some 100) [] [] []).lots, 0 ≤ l.quantity)) ∧
    ((available_stock [⟨1, 7, 2, false⟩] 7 < 5 →
       0 < (deduct_loop 7 5 [⟨1, 7, 2, false⟩]).2.2) ∧
     ((∃ li ∈ [(⟨7, 5, 10⟩ : LineReq)],
         available_stock (Store.mk [⟨1, 7, 2, false⟩] (some 100) [] [] []).lots li.variant <
           li.quantity) →
       submit_order (Store.mk [⟨1, 7, 2, false⟩] (some 100) [] [] []) 1 1
         PaymentType.TOPUP [⟨7, 5, 10⟩] =
         (Store.mk [⟨1, 7, 2, false⟩] (some 100) [] [] [], false)) ∧
     (∀ l' ∈ (submit_order (Store.mk [⟨1, 7, 2, false⟩] (some 100) [] [] []) 1 1
         PaymentType.TOPUP [⟨7, 5, 10⟩]).1.lots, 0 ≤ l'.quantity) ∧
     ((∃ p ∈ (Store.mk [⟨1, 7, 2, false⟩] (some 100) [] [] []).products.filter
          (fun p => p.order == 1), ∃ w,
         p.variant = some w ∧
           available_stock (Store.mk [⟨1, 7, 2, false⟩] (some 100) [] [] []).lots w <
             p.quantity) →
       confirm_reservation (Store.mk [⟨1, 7, 2, false⟩] (some 100) [] [] []) 1 =
         (Store.mk [⟨1, 7, 2, false⟩] (some 100) [] [] [], false)) ∧
     (∀ l' ∈ (confirm_reservation
         (Store.mk [⟨1, 7, 2, false⟩] (some 100) [] [] []) 1).1.lots, 0 ≤ l'.quantity)) :=
  ⟨⟨by decide, by decide⟩,
   C3_no_oversell 7 5 [⟨1, 7, 2, false⟩] (Store.mk [⟨1, 7, 2, false⟩] (some 100) [] [] [])
     1 1 PaymentType.TOPUP [⟨7, 5, 10⟩] (by decide) (by decide)⟩

/-- C4: the FIFO deduction consumes lots in `created_at` (list) order,
recording per lot the id, the deducted amount (positive, bounded by and
taken from the exact pre-deduction quantity snapshot) and accounting
exactly for the requested quantity; on the concrete lots L1 (qty 3,
created first) and L2 (qty 5), deducting 4 takes 3 from L1 (now 0 and
used) then 1 from L2, with trace `[{L1,3,3},{L2,1,5}]` in that order. -/
theorem C4_fifo_trace (v : Nat) (q : Int) (lots : List Stock) :
    (deduct_loop 7 4 [⟨1, 7, 3, false⟩, ⟨2, 7, 5, false⟩] =
      ([⟨1, 7, 0, true⟩, ⟨2, 7, 4, false⟩], [⟨1, 3, 3⟩, ⟨2, 1, 5⟩], 0)) ∧
    ((deduct_loop v q lots).2.1.map (fun e => e.stock_id)).Sublist
      (lots.map (fun l => l.id)) ∧
    (∀ e ∈ (deduct_loop v q lots).2.1, ∃ l ∈ lots,
      l.id = e.stock_id ∧ l.quantity = e.stock_quantity_before ∧
      0 < e.deducted_quantity ∧ e.deducted_quantity ≤ e.stock_quantity_before) ∧
    (((deduct_loop v q lots).2.1.map (fun e => e.deducted_quantity)).sum =
      q - (deduct_loop v q lots).2.2) :=
  ⟨by decide, deduct_loop_trace_sublist v q lots,
   deduct_loop_trace_sound v q lots, deduct_loop_trace_sum v q lots⟩

/-- Witness for C4 at the concrete L1/L2 lots of the claim. -/
theorem C4_fifo_trace_witness :
    (deduct_loop 7 4 [⟨1, 7, 3, false⟩, ⟨2, 7, 5, false⟩] =
      ([⟨1, 7, 0, true⟩, ⟨2, 7, 4, false⟩], [⟨1, 3, 3⟩, ⟨2, 1, 5⟩], 0)) ∧
    ((deduct_loop 7 4 [⟨1, 7, 3, false⟩, ⟨2, 7, 5, false⟩]).2.1.map
      (fun e => e.stock_id)).Sublist
      (([⟨1, 7, 3, false⟩, ⟨2, 7, 5, false⟩] : List Stock).map (fun l => l.id)) ∧
    (∀ e ∈ (deduct_loop 7 4 [⟨1, 7, 3, false⟩, ⟨2, 7, 5, false⟩]).2.1,
      ∃ l ∈ ([⟨1, 7, 3, false⟩, ⟨2, 7, 5, false⟩] : List Stock),
      l.id = e.stock_id ∧ l.quantity = e.stock_quantity_before ∧
      0 < e.deducted_quantity ∧ e.deducted_quantity ≤ e.stock_quantity_before) ∧
    (((deduct_loop 7 4 [⟨1, 7, 3, false⟩, ⟨2, 7, 5, false⟩]).2.1.map
      (fun e => e.deducted_quantity)).sum =
      4 - (deduct_loop 7 4 [⟨1, 7, 3, false⟩, ⟨2, 7, 5, false⟩]).2.2) :=
  C4_fifo_trace 7 4 [⟨1, 7, 3, false⟩, ⟨2, 7, 5, false⟩]

/-- C5: the wallet debit shared by `submit_order` and
`confirm_reservation` fails whenever `amount > balance`, in which case
both operations abort with the store (balance and ledger) untouched;
otherwise it subtracts exactly the amount, appends one confirmed
CONSUMPTION entry with before/after snapshots, and the resulting balance
is never negative. -/
theorem C5_wallet_debit (b total : Int) (oid soid pid0 : Nat) (s : Store)
    (lines : List LineReq) (o : OrderRec) :
    (b < total → debit_topup b total oid = none) ∧
    (total ≤ b → debit_topup b total oid =
      some (b - total,
        ⟨-total, b, b - total, some oid, TopupType.CONSUMPTION, true⟩)) ∧
    (∀ p, debit_topup b total oid = some p →
      0 ≤ p.1 ∧ p.1 = b - total ∧
      p.2 = ⟨-total, b, b - total, some oid, TopupType.CONSUMPTION, true⟩) ∧
    (s.balance = some b → b < lines_total lines →
      submit_order s oid pid0 PaymentType.TOPUP lines = (s, false)) ∧
    (s.orders.find? (fun o2 => o2.id == soid) = some o →
      o.status = OrderStatus.HOLDING → o.payment_type = PaymentType.TOPUP →
      s.balance = some b → b < order_amount s soid + o.shipping_fee →
      confirm_reservation s soid = (s, false)) := by
  refine ⟨?_, ?_, ?_, ?_, ?_⟩
  · intro h
    rw [debit_topup, if_pos h]
  · intro h
    rw [debit_topup, if_neg (by omega)]
  · intro p h
    by_cases hlt : b < total
    · rw [debit_topup, if_pos hlt] at h
      exact absurd h (by simp)
    · rw [debit_topup, if_neg hlt] at h
      simp only [Option.some.injEq] at h
      rw [← h]
      exact ⟨by omega, rfl, rfl⟩
  · exact fun hbal hlt => submit_order_balance_abort s oid pid0 lines b hbal hlt
  · exact fun horder hst hpt hbal hlt =>
      confirm_reservation_balance_abort s soid o b horder hst hpt hbal hlt

/-- Witness for C5 at concrete balance 50, amount 100 (insufficient) and
150 (sufficient is shown through the general parts instantiated). -/
theorem C5_wallet_debit_witness :
    ((50 : Int) < 100 → debit_topup 50 100 1 = none) ∧
    ((100 : Int) ≤ 50 → debit_topup 50 100 1 =
      some (50 - 100,
        ⟨-100, 50, 50 - 100, some 1, TopupType.CONSUMPTION, true⟩)) ∧
    (∀ p, debit_topup 50 100 1 = some p →
      0 ≤ p.1 ∧ p.1 = 50 - 100 ∧
      p.2 = ⟨-100, 50, 50 - 100, some 1, TopupType.CONSUMPTION, true⟩) ∧
    ((Store.mk [] (some 50) [] [] []).balance = some 50 →
      (50 : Int) < lines_total [⟨7, 1, 100⟩] →
      submit_order (Store.mk [] (some 50) [] [] []) 1 1
        PaymentType.TOPUP [⟨7, 1, 100⟩] =
        (Store.mk [] (some 50) [] [] [], false)) ∧
    ((Store.mk [] (some 50) [] [] []).orders.find? (fun o2 => o2.id == 2) =
        some ⟨2, PaymentType.TOPUP, OrderStatus.HOLDING, 0⟩ →
      (⟨2, PaymentType.TOPUP, OrderStatus.HOLDING, 0⟩ : OrderRec).status =
        OrderStatus.HOLDING →
      (⟨2, PaymentType.TOPUP, OrderStatus.HOLDING, 0⟩ : OrderRec).payment_type =
        PaymentType.TOPUP →
      (Store.mk [] (some 50) [] [] []).balance = some 50 →
      (50 : Int) < order_amount (Store.mk [] (some 50) [] [] []) 2 +
        (⟨2, PaymentType.TOPUP, OrderStatus.HOLDING, 0⟩ : OrderRec).shipping_fee →
      confirm_reservation (Store.mk [] (some 50) [] [] []) 2 =
        (Store.mk [] (some 50) [] [] [], false)) :=
  C5_wallet_debit 50 100 1 2 1 (Store.mk [] (some 50) [] [] [])
    [⟨7, 1, 100⟩] ⟨2, PaymentType.TOPUP, OrderStatus.HOLDING, 0⟩

/-- C6 counterexample: a reservation line requesting 5 units while
available stock is 0 does not abort — `submit_reservation` performs no
stock check and still creates the HOLDING order. -/
theorem C6_counterexample :
    available_stock (Store.mk [] none [] [] []).lots 7 < 5 ∧
    (submit_reservation (Store.mk [] none [] [] []) 1 1 PaymentType.TOPUP
      [⟨7, 5, 100⟩]).2 = true := by decide

/-- C6 (amended): `submit_reservation` validates the cart exactly like
`submit_order` (non-empty, non-negative snapshot prices, active variants)
but performs no stock availability check at all: it succeeds regardless of
stock, touches neither lots nor balance nor ledger, and creates the order
HOLDING with every line's `used_stocks` empty.  Shortfalls are only
detected later by `confirm_reservation`. -/
theorem C6_reservation_no_stock_check (s : Store) (oid pid0 : Nat)
    (pt : PaymentType) (lines : List LineReq)
    (h1 : lines.isEmpty = false)
    (h2 : (lines.any fun li => decide (li.unit_price < 0)) = false) :
    (submit_reservation s oid pid0 pt lines).2 = true ∧
    (submit_reservation s oid pid0 pt lines).1.lots = s.lots ∧
    (submit_reservation s oid pid0 pt lines).1.balance = s.balance ∧
    (submit_reservation s oid pid0 pt lines).1.logs = s.logs ∧
    (submit_reservation s oid pid0 pt lines).1.orders =
      ⟨oid, pt, OrderStatus.HOLDING, 0⟩ :: s.orders ∧
    (∀ p ∈ (submit_reservation s oid pid0 pt lines).1.products,
      p ∈ s.products ∨ (p.order = oid ∧ p.used_stocks = [])) := by
  simp only [submit_reservation]
  rw [if_neg (by simp [h1]), if_neg (by simp [h2])]
  refine ⟨rfl, rfl, rfl, rfl, rfl, ?_⟩
  intro p hp
  simp only at hp
  rw [create_products_append] at hp
  rcases List.mem_append.mp hp with hp | hp
  · obtain ⟨li, tr, ix, hmem, hform⟩ := create_products_mem oid pid0 _ 0 p hp
    simp only [List.mem_map] at hmem
    obtain ⟨a, _, heq2⟩ := hmem
    right
    have htr : tr = [] := by
      have := congrArg Prod.snd heq2
      simpa using this.symm
    rw [hform, htr]
    exact ⟨rfl, rfl⟩
  · exact Or.inl hp

/-- Witness for C6 (amended) at the zero-stock store of the counterexample. -/
theorem C6_reservation_no_stock_check_witness :
    (([(⟨7, 5, 100⟩ : LineReq)].isEmpty = false) ∧
     (([(⟨7, 5, 100⟩ : LineReq)].any fun li => decide (li.unit_price < 0)) = false)) ∧
    ((submit_reservation (Store.mk [] none [] [] []) 1 1 PaymentType.TOPUP
        [⟨7, 5, 100⟩]).2 = true ∧
     (submit_reservation (Store.mk [] none [] [] []) 1 1 PaymentType.TOPUP
        [⟨7, 5, 100⟩]).1.lots = (Store.mk [] none [] [] []).lots ∧
     (submit_reservation (Store.mk [] none [] [] []) 1 1 PaymentType.TOPUP
        [⟨7, 5, 100⟩]).1.balance = (Store.mk [] none [] [] []).balance ∧
     (submit_reservation (Store.mk [] none [] [] []) 1 1 PaymentType.TOPUP
        [⟨7, 5, 100⟩]).1.logs = (Store.mk [] none [] [] []).logs ∧
     (submit_reservation (Store.mk [] none [] [] []) 1 1 PaymentType.TOPUP
        [⟨7, 5, 100⟩]).1.orders =
       ⟨1, PaymentType.TOPUP, OrderStatus.HOLDING, 0⟩ :: (Store.mk [] none [] [] []).orders ∧
     (∀ p ∈ (submit_reservation (Store.mk [] none [] [] []) 1 1 PaymentType.TOPUP
        [⟨7, 5, 100⟩]).1.products,
       p ∈ (Store.mk [] none [] [] []).products ∨ (p.order = 1 ∧ p.used_stocks = []))) :=
  ⟨⟨by decide, by decide⟩,
   C6_reservation_no_stock_check (Store.mk [] none [] [] []) 1 1
     PaymentType.TOPUP [⟨7, 5, 100⟩] (by decide) (by decide)⟩

/-- C7 counterexample: a successful CASH checkout leaves the order in
status PENDING, not PAID. -/
theorem C7_counterexample :
    (submit_order (Store.mk [⟨1, 7, 10, false⟩] none [] [] []) 1 1
      PaymentType.CASH [⟨7, 1, 100⟩]).2 = true ∧
    (submit_order (Store.mk [⟨1, 7, 10, false⟩] none [] [] []) 1 1
      PaymentType.CASH [⟨7, 1, 100⟩]).1.orders =
      [⟨1, PaymentType.CASH, OrderStatus.PENDING, 0⟩] ∧
    OrderStatus.PENDING ≠ OrderStatus.PAID := by decide

/-- C7 (amended): for non-WALLET payment (CASH or bank transfer) the
balance step is skipped entirely — wallet and ledger untouched — and the
created order is left in status PENDING at creation; it does not
transition to PAID inside `submit_order`. -/
theorem C7_non_wallet_stays_pending (s : Store) (oid pid0 : Nat)
    (pt : PaymentType) (lines : List LineReq)
    (hpt : pt ≠ PaymentType.TOPUP)
    (hok : (submit_order s oid pid0 pt lines).2 = true) :
    (submit_order s oid pid0 pt lines).1.balance = s.balance ∧
    (submit_order s oid pid0 pt lines).1.logs = s.logs ∧
    (submit_order s oid pid0 pt lines).1.orders =
      ⟨oid, pt, OrderStatus.PENDING, 0⟩ :: s.orders := by
  obtain ⟨lots', tls, hded, hres⟩ :=
    submit_order_non_topup_spec s oid pid0 pt lines hpt hok
  rw [hres]
  exact ⟨rfl, rfl, rfl⟩

/-- Witness for C7 (amended) at the concrete CASH checkout. -/
theorem C7_non_wallet_stays_pending_witness :
    (PaymentType.CASH ≠ PaymentType.TOPUP ∧
     (submit_order (Store.mk [⟨1, 7, 10, false⟩] none [] [] []) 1 1
       PaymentType.CASH [⟨7, 1, 100⟩]).2 = true) ∧
    ((submit_order (Store.mk [⟨1, 7, 10, false⟩] none [] [] []) 1 1
        PaymentType.CASH [⟨7, 1, 100⟩]).1.balance =
      (Store.mk [⟨1, 7, 10, false⟩] none [] [] []).balance ∧
     (submit_order (Store.mk [⟨1, 7, 10, false⟩] none [] [] []) 1 1
        PaymentType.CASH [⟨7, 1, 100⟩]).1.logs =
      (Store.mk [⟨1, 7, 10, false⟩] none [] [] []).logs ∧
     (submit_order (Store.mk [⟨1, 7, 10, false⟩] none [] [] []) 1 1
        PaymentType.CASH [⟨7, 1, 100⟩]).1.orders =
      ⟨1, PaymentType.CASH, OrderStatus.PENDING, 0⟩ ::
        (Store.mk [⟨1, 7, 10, false⟩] none [] [] []).orders) :=
  ⟨⟨by decide, by decide⟩,
   C7_non_wallet_stays_pending (Store.mk [⟨1, 7, 10, false⟩] none [] [] []) 1 1
     PaymentType.CASH [⟨7, 1, 100⟩] (by decide) (by decide)⟩

/-- C8 counterexample: with sufficient stock but no `AccountTopUP` row, a
TOPUP `submit_order` fails outright ("account has no topup facility") and
no balance row is materialised — the debit is not given get-or-create
semantics. -/
theorem C8_counterexample :
    1 ≤ available_stock [⟨1, 7, 10, false⟩] 7 ∧
    (submit_order (Store.mk [⟨1, 7, 10, false⟩] none [] [] []) 1 1
      PaymentType.TOPUP [⟨7, 1, 100⟩]).2 = false ∧
    (submit_order (Store.mk [⟨1, 7, 10, false⟩] none [] [] []) 1 1
      PaymentType.TOPUP [⟨7, 1, 100⟩]).1.balance = none := by decide

/-- C8 (amended): a missing `AccountTopUP` row is read as balance 0 and
materialised lazily only by the deposit path (`get_or_create` in
`TopupCreateView`); the wallet debit of `submit_order` instead aborts when
the row is missing, and the refund credit of `DeleteOrderView` is skipped,
leaving the row absent. -/
theorem C8_lazy_row_only_on_deposit (s : Store) (oid pid0 : Nat)
    (amount : Int) (lines : List LineReq)
    (hb : s.balance = none) :
    (topup_create s amount).balance = some amount ∧
    (topup_create s amount).logs =
      ⟨amount, 0, 0 + amount, none, TopupType.DEPOSIT, true⟩ :: s.logs ∧
    submit_order s oid pid0 PaymentType.TOPUP lines = (s, false) ∧
    (delete_order s oid).1.balance = none := by
  refine ⟨?_, ?_, ?_, ?_⟩
  · simp [topup_create, hb]
  · simp [topup_create, hb]
  · simp only [submit_order]
    by_cases h1 : lines.isEmpty = true
    · rw [if_pos h1]
    · rw [if_neg h1]
      by_cases h2 : (lines.any fun li => decide (li.unit_price < 0)) = true
      · rw [if_pos h2]
      · rw [if_neg h2]
        by_cases h3 : (lines.any fun li =>
            decide (available_stock s.lots li.variant < li.quantity)) = true
        · rw [if_pos h3]
        · rw [if_neg h3]
          rw [if_pos (by simp [hb])]
  · simp only [delete_order, hb]
    split
    · exact hb
    · split
      · exact hb
      · split
        · rfl
        · rfl

/-- Witness for C8 (amended) at the concrete missing-row store. -/
theorem C8_lazy_row_only_on_deposit_witness :
    ((Store.mk [⟨1, 7, 10, false⟩] none [] [] []).balance = none) ∧
    ((topup_create (Store.mk [⟨1, 7, 10, false⟩] none [] [] []) 500).balance =
       some 500 ∧
     (topup_create (Store.mk [⟨1, 7, 10, false⟩] none [] [] []) 500).logs =
       ⟨500, 0, 0 + 500, none, TopupType.DEPOSIT, true⟩ ::
         (Store.mk [⟨1, 7, 10, false⟩] none [] [] []).logs ∧
     submit_order (Store.mk [⟨1, 7, 10, false⟩] none [] [] []) 1 1
       PaymentType.TOPUP [⟨7, 1, 100⟩] =
       (Store.mk [⟨1, 7, 10, false⟩] none [] [] [], false) ∧
     (delete_order (Store.mk [⟨1, 7, 10, false⟩] none [] [] []) 1).1.balance = none) :=
  ⟨by decide,
   C8_lazy_row_only_on_deposit (Store.mk [⟨1, 7, 10, false⟩] none [] [] []) 1 1
     500 [⟨7, 1, 100⟩] (by decide)⟩

/-- C9: for an authenticated DISTRIBUTOR account whose parent is missing,
or whose parent is not an AGENT, or for which the parent agent has no
`AgentDistributorPricing` row for the variant, price resolution returns
`(0, none, false)` — the variant is not purchasable. -/
theorem C9_distributor_unpurchasable (v : Variant)
    (lookup : Nat → Option AgentDistributorPricing) (user : Account)
    (hauth : user.is_authenticated = true)
    (hrole : user.role = AccountRole.DISTRIBUTOR)
    (h : user.parent = none ∨
      (∃ pr, user.parent = some pr ∧ pr.role ≠ AccountRole.AGENT) ∨
      (∃ pr, user.parent = some pr ∧ pr.role = AccountRole.AGENT ∧
        lookup pr.id = none)) :
    get_variant_price_for_user v lookup user = (0, none, false) := by
  simp only [get_variant_price_for_user]
  rw [if_neg (by simp [hauth]), hrole]
  simp only [get_distributor_price, hrole]
  rw [if_neg (by simp)]
  rcases h with hp | ⟨pr, hp, hr⟩ | ⟨pr, hp, hr, hl⟩
  · rw [hp]
  · rw [hp]
    simp only
    rw [if_pos (by simpa using hr)]
  · rw [hp]
    simp only
    rw [if_neg (by simp [hr]), hl]

/-- Witness for C9 at a distributor with no parent and an empty pricing
table. -/
theorem C9_distributor_unpurchasable_witness :
    ((Account.mk true AccountRole.DISTRIBUTOR none).is_authenticated = true ∧
     (Account.mk true AccountRole.DISTRIBUTOR none).role = AccountRole.DISTRIBUTOR) ∧
    get_variant_price_for_user
      (Variant.mk none none none none none none)
      (fun _ => none)
      (Account.mk true AccountRole.DISTRIBUTOR none) = (0, none, false) :=
  ⟨⟨rfl, rfl⟩,
   C9_distributor_unpurchasable (Variant.mk none none none none none none)
     (fun _ => none) (Account.mk true AccountRole.DISTRIBUTOR none)
     rfl rfl (Or.inl rfl)⟩

/-- C10: every ledger entry written by deposit, order debit or the refund
paths satisfies `balance_after = balance_before + amount` with
`balance_after` equal to the balance persisted by the same operation;
amounts are signed with the CONSUMPTION debit negative (for positive
totals) and deposits/refunds non-negative. -/
theorem C10_ledger_entry_invariant (s : Store) (amount b total : Int)
    (oid pid0 : Nat) (lines : List LineReq) :
    ((topup_create s amount).logs =
      ⟨amount, s.balance.getD 0, s.balance.getD 0 + amount, none,
       TopupType.DEPOSIT, true⟩ :: s.logs ∧
     (topup_create s amount).balance = some (s.balance.getD 0 + amount)) ∧
    (∀ p, debit_topup b total oid = some p →
      p.2.balance_after = p.2.balance_before + p.2.amount ∧
      p.2.balance_after = p.1 ∧
      p.2.log_type = TopupType.CONSUMPTION ∧
      p.2.amount = -total ∧
      p.2.is_confirmed = true) ∧
    ((credit_refund b total oid).2.balance_after =
       (credit_refund b total oid).2.balance_before +
         (credit_refund b total oid).2.amount ∧
     (credit_refund b total oid).2.balance_after = (credit_refund b total oid).1 ∧
     (credit_refund b total oid).2.log_type = TopupType.REFUND ∧
     (credit_refund b total oid).2.amount = total ∧
     (credit_refund b total oid).2.is_confirmed = true) ∧
    (0 < total → ∀ p, debit_topup b total oid = some p → p.2.amount < 0) ∧
    (0 ≤ total → 0 ≤ (credit_refund b total oid).2.amount) ∧
    ((submit_order s oid pid0 PaymentType.TOPUP lines).2 = true →
      ∃ lg, (submit_order s oid pid0 PaymentType.TOPUP lines).1.logs = lg :: s.logs ∧
        (submit_order s oid pid0 PaymentType.TOPUP lines).1.balance =
          some lg.balance_after ∧
        lg.balance_after = lg.balance_before + lg.amount ∧
        lg.log_type = TopupType.CONSUMPTION) := by
  have hdeb : ∀ p, debit_topup b total oid = some p →
      p = (b - total,
        ⟨-total, b, b - total, some oid, TopupType.CONSUMPTION, true⟩) := by
    intro p h
    by_cases hlt : b < total
    · rw [debit_topup, if_pos hlt] at h
      exact absurd h (by simp)
    · rw [debit_topup, if_neg hlt] at h
      simp only [Option.some.injEq] at h
      exact h.symm
  refine ⟨⟨rfl, rfl⟩, ?_, ⟨by simp [credit_refund], rfl, rfl, rfl, rfl⟩, ?_, ?_, ?_⟩
  · intro p h
    rw [hdeb p h]
    refine ⟨by simp; ring, rfl, rfl, rfl, rfl⟩
  · intro hpos p h
    rw [hdeb p h]
    simpa using hpos
  · intro hpos
    simpa [credit_refund] using hpos
  · intro hok
    obtain ⟨b', lots', tls, hbal, hle, hded, hres⟩ :=
      submit_order_topup_spec s oid pid0 lines hok
    rw [hres]
    exact ⟨_, rfl, rfl, by simp; ring, rfl⟩

/-- Witness for C10 at concrete deposit 500, balance 1000, amount 300. -/
theorem C10_ledger_entry_invariant_witness :
    (((topup_create (Store.mk [⟨1, 7, 10, false⟩] (some 1000) [] [] []) 500).logs :
        List AccountTopUPLog) =
      ⟨500, (Store.mk [⟨1, 7, 10, false⟩] (some 1000) [] [] []).balance.getD 0,
       (Store.mk [⟨1, 7, 10, false⟩] (some 1000) [] [] []).balance.getD 0 + 500,
       none, TopupType.DEPOSIT, true⟩ ::
        (Store.mk [⟨1, 7, 10, false⟩] (some 1000) [] [] []).logs ∧
     (topup_create (Store.mk [⟨1, 7, 10, false⟩] (some 1000) [] [] []) 500).balance =
       some ((Store.mk [⟨1, 7, 10, false⟩] (some 1000) [] [] []).balance.getD 0 + 500)) ∧
    (∀ p, debit_topup 1000 300 1 = some p →
      p.2.balance_after = p.2.balance_before + p.2.amount ∧
      p.2.balance_after = p.1 ∧
      p.2.log_type = TopupType.CONSUMPTION ∧
      p.2.amount = -300 ∧
      p.2.is_confirmed = true) ∧
    ((credit_refund 1000 300 1).2.balance_after =
       (credit_refund 1000 300 1).2.balance_before +
         (credit_refund 1000 300 1).2.amount ∧
     (credit_refund 1000 300 1).2.balance_after = (credit_refund 1000 300 1).1 ∧
     (credit_refund 1000 300 1).2.log_type = TopupType.REFUND ∧
     (credit_refund 1000 300 1).2.amount = 300 ∧
     (credit_refund 1000 300 1).2.is_confirmed = true) ∧
    ((0 : Int) < 300 → ∀ p, debit_topup 1000 300 1 = some p → p.2.amount < 0) ∧
    ((0 : Int) ≤ 300 → 0 ≤ (credit_refund 1000 300 1).2.amount) ∧
    ((submit_order (Store.mk [⟨1, 7, 10, false⟩] (some 1000) [] [] []) 1 1
        PaymentType.TOPUP [⟨7, 3, 100⟩]).2 = true →
      ∃ lg, (submit_order (Store.mk [⟨1, 7, 10, false⟩] (some 1000) [] [] []) 1 1
          PaymentType.TOPUP [⟨7, 3, 100⟩]).1.logs =
          lg :: (Store.mk [⟨1, 7, 10, false⟩] (some 1000) [] [] []).logs ∧
        (submit_order (Store.mk [⟨1, 7, 10, false⟩] (some 1000) [] [] []) 1 1
          PaymentType.TOPUP [⟨7, 3, 100⟩]).1.balance = some lg.balance_after ∧
        lg.balance_after = lg.balance_before + lg.amount ∧
        lg.log_type = TopupType.CONSUMPTION) :=
  C10_ledger_entry_invariant (Store.mk [⟨1, 7, 10, false⟩] (some 1000) [] [] [])
    500 1000 300 1 1 [⟨7, 3, 100⟩]
